import Mathlib

/-!
Shallow embedding of the calendar-server event core:
the domain `Event` type, the in-memory event repository
(`internal/repository/event_repository/inmemory/inmemory.go`) and the
orchestration use-case layer (`internal/usecase/event_usecase`).

Modelling conventions:
* The Go `map[string]domain.Event` is modelled as an association list
  `List (String × Event)` with at most one binding per key (all operations
  preserve this); Go's unspecified map iteration order is determinized to
  the list order — every property proved below (membership, permutation,
  sortedness) is invariant under that choice.
* `context.Context` cancellation is modelled by a `Bool` flag (`cancelled`)
  standing for `ctx.Err() != nil`; the resulting `ctx.Err()` error is the
  `Cancelled` error kind.
* Go's non-stable `sort.Slice` is modelled by `List.insertionSort` over the
  same "date then title" comparison; the claims only use the sortedness of
  the output and the multiset of its elements, both of which every correct
  implementation of `sort.Slice` guarantees.
* `time.Parse("2006-01-02", s)` is modelled by `parseDate`, and the Go zero
  `time.Time` produced when the error is discarded (January 1 of year 1) by
  `goParsedOrZero`.  `Time.ISOWeek` is modelled by `isoWeek`.
-/

/-- `domain.Event` from `internal/domain` (part_002): id, user id,
date string in `YYYY-MM-DD` form, title. -/
structure Event where
  ID : String
  UserID : String
  Date : String
  Title : String
deriving DecidableEq, Repr

/-- The error taxonomy of `pkg/errors` (plus the `ctx.Err()` cancellation
error): `ErrEmptyEventID`, `ErrEmptyUserID`, `ErrEmptyTitle`,
`ErrInvalidDate`, `ErrEventConflict`, `ErrEventNotFound`, `context.Canceled`. -/
inductive Err where
  | EmptyID
  | EmptyUserID
  | EmptyTitle
  | InvalidDate
  | Conflict
  | NotFound
  | Cancelled
deriving DecidableEq, Repr

/-- The repository's `events map[string]domain.Event`, as an association
list (no duplicate keys in any reachable state). -/
abbrev Store := List (String × Event)

/-- Go map lookup `r.events[k]` (as `v, exists := r.events[k]`). -/
def Store.find? (s : Store) (k : String) : Option Event :=
  match s with
  | [] => none
  | (k1, v) :: rest => if k1 = k then some v else Store.find? rest k

/-- Go map assignment `r.events[k] = v`: replaces an existing binding for
`k`, otherwise appends a new one. -/
def Store.insert (s : Store) (k : String) (v : Event) : Store :=
  match s with
  | [] => [(k, v)]
  | (k1, v1) :: rest =>
    if k1 = k then (k, v) :: rest else (k1, v1) :: Store.insert rest k v

/-- Go `delete(r.events, k)`. -/
def Store.erase (s : Store) (k : String) : Store :=
  match s with
  | [] => []
  | (k1, v1) :: rest =>
    if k1 = k then Store.erase rest k else (k1, v1) :: Store.erase rest k

/-- The stored events, in iteration order (`for _, event := range r.events`). -/
def Store.values (s : Store) : List Event :=
  s.map Prod.snd

/-- A parsed calendar date (the year/month/day of a Go `time.Time` holding
a parsed `YYYY-MM-DD` value). -/
structure Date where
  year : Nat
  month : Nat
  day : Nat
deriving DecidableEq, Repr

/-- Gregorian leap-year rule, as Go's `time.isLeap`. -/
def isLeapYear (y : Nat) : Bool :=
  y % 4 == 0 && (y % 100 != 0 || y % 400 == 0)

/-- Days in a month, as Go's `time.daysIn`. -/
def daysInMonth (y m : Nat) : Nat :=
  if m == 2 then (if isLeapYear y then 29 else 28)
  else if m == 4 || m == 6 || m == 9 || m == 11 then 30
  else 31

/-- Numeric value of a decimal digit character. -/
def digitVal (c : Char) : Nat :=
  c.toNat - 48

/-- Go `time.Parse("2006-01-02", s)`: exactly four year digits, a dash,
two month digits (range 01–12), a dash, two day digits (range 01 to the
month's length in that year); anything else is a parse error (`none`). -/
def parseDate (s : String) : Option Date :=
  match s.toList with
  | [y1, y2, y3, y4, s1, m1, m2, s2, d1, d2] =>
    if s1 = '-' ∧ s2 = '-' ∧ ([y1, y2, y3, y4, m1, m2, d1, d2].all Char.isDigit) then
      let y := ((digitVal y1 * 10 + digitVal y2) * 10 + digitVal y3) * 10 + digitVal y4
      let m := digitVal m1 * 10 + digitVal m2
      let d := digitVal d1 * 10 + digitVal d2
      if 1 ≤ m ∧ m ≤ 12 ∧ 1 ≤ d ∧ d ≤ daysInMonth y m then
        some ⟨y, m, d⟩
      else none
    else none
  | _ => none

/-- `targetDate, _ := time.Parse("2006-01-02", s)` with the error
discarded: a parse failure leaves the zero `time.Time`, whose date is
January 1 of year 1. -/
def goParsedOrZero (s : String) : Date :=
  (parseDate s).getD ⟨1, 1, 1⟩

/-- Days in January..month `m - 1` of a non-leap year. -/
def daysBeforeMonth (m : Nat) : Nat :=
  [0, 0, 31, 59, 90, 120, 151, 181, 212, 243, 273, 304, 334].getD m 0

/-- One-based ordinal of the date inside its year (Go's `yday + 1`). -/
def ordinalDay (d : Date) : Nat :=
  daysBeforeMonth d.month + (if 2 < d.month ∧ isLeapYear d.year then 1 else 0) + d.day

/-- Number of leap years `k` with `0 ≤ k < y`. -/
def leapsBefore (y : Nat) : Nat :=
  (y + 3) / 4 - (y + 99) / 100 + (y + 399) / 400

/-- Days from 0000-01-01 (proleptic Gregorian) to the given date. -/
def daysSinceYear0 (d : Date) : Nat :=
  365 * d.year + leapsBefore d.year + ordinalDay d - 1

/-- ISO weekday index of the date: 0 = Monday, …, 6 = Sunday
(0000-01-01 is a Saturday, index 5). -/
def isoWeekdayIdx (d : Date) : Nat :=
  (daysSinceYear0 d + 5) % 7

/-- Gregorian leap-year rule over `Int` (Go year arithmetic). -/
def isLeapYearI (y : Int) : Bool :=
  y.emod 4 == 0 && (y.emod 100 != 0 || y.emod 400 == 0)

/-- Length of a year in days, over `Int`. -/
def daysInYearI (y : Int) : Int :=
  if isLeapYearI y then 366 else 365

/-- Go `Time.ISOWeek()`: move to the Thursday of the Monday-start week
containing the date; the ISO year is that Thursday's calendar year, and
the ISO week is `yday / 7 + 1` for that Thursday (zero-based `yday`). -/
def isoWeek (d : Date) : Int × Int :=
  let y : Int := d.year
  let t : Int := (ordinalDay d : Int) + 3 - (isoWeekdayIdx d : Int)
  if t ≤ 0 then
    (y - 1, (t + daysInYearI (y - 1) - 1) / 7 + 1)
  else if daysInYearI y < t then
    (y + 1, (t - daysInYearI y - 1) / 7 + 1)
  else
    (y, (t - 1) / 7 + 1)

/-- The comparison underlying `sortEvents` (`inmemory.go:199`): date
ascending, title ascending on equal dates.  Go's byte-wise string
comparison is the lexicographic order on the character lists (UTF-8
byte order and code-point order agree), written here on `String.toList`
so that it is kernel-computable. -/
def eventLE (a b : Event) : Prop :=
  a.Date.toList < b.Date.toList ∨ (a.Date = b.Date ∧ a.Title.toList ≤ b.Title.toList)

instance : DecidableRel eventLE :=
  fun a b => by unfold eventLE; infer_instance

/-- `sortEvents` (`inmemory.go:199`): sort by date, then by title for
equal dates (`sort.Slice` determinized to insertion sort). -/
def sortEvents (events : List Event) : List Event :=
  events.insertionSort eventLE

/-- The result list of a query outcome (`[]domain.Event` on success). -/
def queryList (r : Except Err (List Event) × Store) : List Event :=
  match r.1 with
  | Except.ok l => l
  | Except.error _ => []

/-- `EventRepository.Create` (`inmemory.go:32`): cancellation check, then
conflict check on the id, then `r.events[event.ID] = event`. -/
def EventRepository.Create (cancelled : Bool) (s : Store) (event : Event) :
    Except Err Unit × Store :=
  if cancelled then (Except.error Err.Cancelled, s)
  else if (Store.find? s event.ID).isSome then (Except.error Err.Conflict, s)
  else (Except.ok (), Store.insert s event.ID event)

/-- `EventRepository.Update` (`inmemory.go:60`): cancellation check, then
existence check on the id, then `r.events[event.ID] = event`. -/
def EventRepository.Update (cancelled : Bool) (s : Store) (event : Event) :
    Except Err Unit × Store :=
  if cancelled then (Except.error Err.Cancelled, s)
  else if (Store.find? s event.ID).isSome then (Except.ok (), Store.insert s event.ID event)
  else (Except.error Err.NotFound, s)

/-- `EventRepository.Delete` (`inmemory.go:87`): cancellation check, then
existence check, then `delete(r.events, eventID)`. -/
def EventRepository.Delete (cancelled : Bool) (s : Store) (eventID : String) :
    Except Err Unit × Store :=
  if cancelled then (Except.error Err.Cancelled, s)
  else if (Store.find? s eventID).isSome then (Except.ok (), Store.erase s eventID)
  else (Except.error Err.NotFound, s)

/-- `EventRepository.GetByUserIDAndDate` (`inmemory.go:114`): keep events
with equal user id and exactly equal date string, then sort. -/
def EventRepository.GetByUserIDAndDate (cancelled : Bool) (s : Store) (userID date : String) :
    Except Err (List Event) × Store :=
  if cancelled then (Except.error Err.Cancelled, s)
  else
    let events := (Store.values s).filter fun event =>
      event.UserID == userID && event.Date == date
    (Except.ok (sortEvents events), s)

/-- `EventRepository.GetByUserIDAndWeek` (`inmemory.go:134`): parse the
target date discarding the error, take its ISO week pair, keep the user's
events whose own date parses and has the same ISO week pair, then sort. -/
def EventRepository.GetByUserIDAndWeek (cancelled : Bool) (s : Store) (userID date : String) :
    Except Err (List Event) × Store :=
  if cancelled then (Except.error Err.Cancelled, s)
  else
    let target := isoWeek (goParsedOrZero date)
    let events := (Store.values s).filter fun event =>
      event.UserID == userID &&
        match parseDate event.Date with
        | some eventDate => isoWeek eventDate == target
        | none => false
    (Except.ok (sortEvents events), s)

/-- `EventRepository.GetByUserIDAndMonth` (`inmemory.go:167`): parse the
target date discarding the error, take its year and month, keep the
user's events whose own date parses and has the same year and month,
then sort. -/
def EventRepository.GetByUserIDAndMonth (cancelled : Bool) (s : Store) (userID date : String) :
    Except Err (List Event) × Store :=
  if cancelled then (Except.error Err.Cancelled, s)
  else
    let target := goParsedOrZero date
    let events := (Store.values s).filter fun event =>
      event.UserID == userID &&
        match parseDate event.Date with
        | some eventDate => eventDate.year == target.year && eventDate.month == target.month
        | none => false
    (Except.ok (sortEvents events), s)

/-- `isValidDate` (usecase validation, part_003): the date parses as
`YYYY-MM-DD`. -/
def isValidDate (date : String) : Bool :=
  (parseDate date).isSome

/-- `EventUseCase.validateEvent` (part_003): id, then user id, then
title, then date format; the first violated rule's error is returned. -/
def EventUseCase.validateEvent (event : Event) : Option Err :=
  if event.ID = "" then some Err.EmptyID
  else if event.UserID = "" then some Err.EmptyUserID
  else if event.Title = "" then some Err.EmptyTitle
  else if !isValidDate event.Date then some Err.InvalidDate
  else none

/-- `EventUseCase.validateEventID` (part_003). -/
def EventUseCase.validateEventID (id : String) : Option Err :=
  if id = "" then some Err.EmptyID else none

/-- `EventUseCase.validateUserID` (part_003). -/
def EventUseCase.validateUserID (userID : String) : Option Err :=
  if userID = "" then some Err.EmptyUserID else none

/-- `EventUseCase.validateDate` (part_003). -/
def EventUseCase.validateDate (date : String) : Option Err :=
  if !isValidDate date then some Err.InvalidDate else none

/-- `EventUseCase.CreateEvent` (part_003): cancellation check, full
validation, then `repo.Create`. -/
def EventUseCase.CreateEvent (cancelled : Bool) (s : Store) (event : Event) :
    Except Err Unit × Store :=
  if cancelled then (Except.error Err.Cancelled, s)
  else
    match EventUseCase.validateEvent event with
    | some e => (Except.error e, s)
    | none => EventRepository.Create cancelled s event

/-- `EventUseCase.UpdateEvent` (part_003): cancellation check, full
validation, then `repo.Update`. -/
def EventUseCase.UpdateEvent (cancelled : Bool) (s : Store) (event : Event) :
    Except Err Unit × Store :=
  if cancelled then (Except.error Err.Cancelled, s)
  else
    match EventUseCase.validateEvent event with
    | some e => (Except.error e, s)
    | none => EventRepository.Update cancelled s event

/-- `EventUseCase.DeleteEvent` (part_003): cancellation check, id
validation, then `repo.Delete`. -/
def EventUseCase.DeleteEvent (cancelled : Bool) (s : Store) (eventID : String) :
    Except Err Unit × Store :=
  if cancelled then (Except.error Err.Cancelled, s)
  else
    match EventUseCase.validateEventID eventID with
    | some e => (Except.error e, s)
    | none => EventRepository.Delete cancelled s eventID

/-- `EventUseCase.GetEventsForDay` (part_003): cancellation check, user id
and date validation, then `repo.GetByUserIDAndDate`. -/
def EventUseCase.GetEventsForDay (cancelled : Bool) (s : Store) (userID date : String) :
    Except Err (List Event) × Store :=
  if cancelled then (Except.error Err.Cancelled, s)
  else
    match EventUseCase.validateUserID userID with
    | some e => (Except.error e, s)
    | none =>
      match EventUseCase.validateDate date with
      | some e => (Except.error e, s)
      | none => EventRepository.GetByUserIDAndDate cancelled s userID date

/-- `EventUseCase.GetEventsForWeek` (part_003). -/
def EventUseCase.GetEventsForWeek (cancelled : Bool) (s : Store) (userID date : String) :
    Except Err (List Event) × Store :=
  if cancelled then (Except.error Err.Cancelled, s)
  else
    match EventUseCase.validateUserID userID with
    | some e => (Except.error e, s)
    | none =>
      match EventUseCase.validateDate date with
      | some e => (Except.error e, s)
      | none => EventRepository.GetByUserIDAndWeek cancelled s userID date

/-- `EventUseCase.GetEventsForMonth` (part_003). -/
def EventUseCase.GetEventsForMonth (cancelled : Bool) (s : Store) (userID date : String) :
    Except Err (List Event) × Store :=
  if cancelled then (Except.error Err.Cancelled, s)
  else
    match EventUseCase.validateUserID userID with
    | some e => (Except.error e, s)
    | none =>
      match EventUseCase.validateDate date with
      | some e => (Except.error e, s)
      | none => EventRepository.GetByUserIDAndMonth cancelled s userID date

/-- Store states reachable from the empty store through the
orchestration-layer (use-case) operations. -/
inductive Reachable : Store → Prop where
  | empty : Reachable []
  | create (c : Bool) (s : Store) (e : Event) :
      Reachable s → Reachable (EventUseCase.CreateEvent c s e).2
  | update (c : Bool) (s : Store) (e : Event) :
      Reachable s → Reachable (EventUseCase.UpdateEvent c s e).2
  | delete (c : Bool) (s : Store) (id : String) :
      Reachable s → Reachable (EventUseCase.DeleteEvent c s id).2
  | day (c : Bool) (s : Store) (u d : String) :
      Reachable s → Reachable (EventUseCase.GetEventsForDay c s u d).2
  | week (c : Bool) (s : Store) (u d : String) :
      Reachable s → Reachable (EventUseCase.GetEventsForWeek c s u d).2
  | month (c : Bool) (s : Store) (u d : String) :
      Reachable s → Reachable (EventUseCase.GetEventsForMonth c s u d).2

/-- Store states reachable from the empty store through the repository
operations themselves (a superset of the use-case-reachable states). -/
inductive RepoReachable : Store → Prop where
  | empty : RepoReachable []
  | create (c : Bool) (s : Store) (e : Event) :
      RepoReachable s → RepoReachable (EventRepository.Create c s e).2
  | update (c : Bool) (s : Store) (e : Event) :
      RepoReachable s → RepoReachable (EventRepository.Update c s e).2
  | delete (c : Bool) (s : Store) (id : String) :
      RepoReachable s → RepoReachable (EventRepository.Delete c s id).2
  | day (c : Bool) (s : Store) (u d : String) :
      RepoReachable s → RepoReachable (EventRepository.GetByUserIDAndDate c s u d).2
  | week (c : Bool) (s : Store) (u d : String) :
      RepoReachable s → RepoReachable (EventRepository.GetByUserIDAndWeek c s u d).2
  | month (c : Bool) (s : Store) (u d : String) :
      RepoReachable s → RepoReachable (EventRepository.GetByUserIDAndMonth c s u d).2

/-- A well-formed sample event (`test-1`-style fixture). -/
def evA : Event := ⟨"e1", "u1", "2025-01-15", "Alpha"⟩

/-- A second event sharing `evA`'s id. -/
def evB : Event := ⟨"e1", "u1", "2025-01-15", "Beta"⟩

/-- An event of a different user (for empty-query states). -/
def evOther : Event := ⟨"x9", "user-2", "2025-03-03", "Other"⟩

/-- The fully invalid event of the validation-precedence property. -/
def evBad : Event := ⟨"", "", "", "bad"⟩

/-- Event on Wednesday 2025-01-15 (ISO week 3 of 2025). -/
def demoWed : Event := ⟨"1", "user-1", "2025-01-15", "Wed Event"⟩

/-- Event on Thursday 2025-01-16 (same ISO week). -/
def demoThu : Event := ⟨"2", "user-1", "2025-01-16", "Thu Event"⟩

/-- Event on Wednesday 2025-01-22 (next ISO week). -/
def demoNext : Event := ⟨"3", "user-1", "2025-01-22", "Next Week Event"⟩

/-- Store holding the three week-query demo events. -/
def demoWeekStore : Store := [("1", demoWed), ("2", demoThu), ("3", demoNext)]

/-- Event dated January 1 of year 1 — the date of the zero `time.Time`. -/
def evYear1 : Event := ⟨"z1", "user-z", "0001-01-01", "Zero"⟩

/-- Store holding only `evYear1`. -/
def storeYear1 : Store := [("z1", evYear1)]

instance : IsTotal Event eventLE :=
  ⟨fun a b => by
    unfold eventLE
    rcases lt_trichotomy a.Date.toList b.Date.toList with h | h | h
    · exact Or.inl (Or.inl h)
    · have hd : a.Date = b.Date := String.toList_inj.mp h
      rcases le_total a.Title.toList b.Title.toList with ht | ht
      · exact Or.inl (Or.inr ⟨hd, ht⟩)
      · exact Or.inr (Or.inr ⟨hd.symm, ht⟩)
    · exact Or.inr (Or.inl h)⟩

instance : IsTrans Event eventLE :=
  ⟨fun a b c hab hbc => by
    unfold eventLE at hab hbc ⊢
    rcases hab with h1 | ⟨h1, t1⟩
    · rcases hbc with h2 | ⟨h2, t2⟩
      · exact Or.inl (h1.trans h2)
      · rw [← h2]; exact Or.inl h1
    · rcases hbc with h2 | ⟨h2, t2⟩
      · rw [h1]; exact Or.inl h2
      · exact Or.inr ⟨h1.trans h2, t1.trans t2⟩⟩

theorem Store.find_insert_self (s : Store) (k : String) (v : Event) :
    Store.find? (Store.insert s k v) k = some v := by
  induction s with
  | nil => simp [Store.insert, Store.find?]
  | cons p rest ih =>
    obtain ⟨k1, v1⟩ := p
    by_cases hk : k1 = k
    · simp [Store.insert, hk, Store.find?]
    · simp [Store.insert, hk, Store.find?, ih]

theorem Store.mem_insert {p : String × Event} {s : Store} {k : String} {v : Event}
    (h : p ∈ Store.insert s k v) : p = (k, v) ∨ p ∈ s := by
  induction s with
  | nil => simp [Store.insert] at h; exact Or.inl h
  | cons q rest ih =>
    obtain ⟨k1, v1⟩ := q
    by_cases hk : k1 = k
    · simp only [Store.insert, if_pos hk, List.mem_cons] at h
      rcases h with h | h
      · exact Or.inl h
      · exact Or.inr (List.mem_cons_of_mem _ h)
    · simp only [Store.insert, if_neg hk, List.mem_cons] at h
      rcases h with h | h
      · exact Or.inr (h ▸ List.mem_cons_self _ _)
      · rcases ih h with h2 | h2
        · exact Or.inl h2
        · exact Or.inr (List.mem_cons_of_mem _ h2)

theorem Store.mem_erase {p : String × Event} {s : Store} {k : String}
    (h : p ∈ Store.erase s k) : p ∈ s := by
  induction s with
  | nil => simp [Store.erase] at h
  | cons q rest ih =>
    obtain ⟨k1, v1⟩ := q
    by_cases hk : k1 = k
    · simp only [Store.erase, if_pos hk] at h
      exact List.mem_cons_of_mem _ (ih h)
    · simp only [Store.erase, if_neg hk, List.mem_cons] at h
      rcases h with h | h
      · exact h ▸ List.mem_cons_self _ _
      · exact List.mem_cons_of_mem _ (ih h)

theorem Store.mem_values {e : Event} {s : Store} :
    e ∈ Store.values s ↔ ∃ p ∈ s, p.2 = e := by
  unfold Store.values
  simp [List.mem_map]

theorem Store.mem_values_insert {e : Event} {s : Store} {k : String} {v : Event}
    (h : e ∈ Store.values (Store.insert s k v)) : e = v ∨ e ∈ Store.values s := by
  rcases Store.mem_values.mp h with ⟨p, hp, hpe⟩
  rcases Store.mem_insert hp with h2 | h2
  · exact Or.inl (by rw [← hpe, h2])
  · exact Or.inr (Store.mem_values.mpr ⟨p, h2, hpe⟩)

theorem Store.mem_values_erase {e : Event} {s : Store} {k : String}
    (h : e ∈ Store.values (Store.erase s k)) : e ∈ Store.values s := by
  rcases Store.mem_values.mp h with ⟨p, hp, hpe⟩
  exact Store.mem_values.mpr ⟨p, Store.mem_erase hp, hpe⟩

theorem validateEvent_eq_none {e : Event} (h : EventUseCase.validateEvent e = none) :
    e.ID ≠ "" ∧ e.UserID ≠ "" ∧ e.Title ≠ "" ∧ isValidDate e.Date = true := by
  unfold EventUseCase.validateEvent at h
  split_ifs at h with h1 h2 h3 h4
  refine ⟨h1, h2, h3, ?_⟩
  simpa using h4

theorem RepoCreate_mem {c : Bool} {s : Store} {e : Event} {p : String × Event}
    (h : p ∈ (EventRepository.Create c s e).2) : p = (e.ID, e) ∨ p ∈ s := by
  unfold EventRepository.Create at h
  split at h
  · exact Or.inr h
  · split at h
    · exact Or.inr h
    · exact Store.mem_insert h

theorem RepoUpdate_mem {c : Bool} {s : Store} {e : Event} {p : String × Event}
    (h : p ∈ (EventRepository.Update c s e).2) : p = (e.ID, e) ∨ p ∈ s := by
  unfold EventRepository.Update at h
  split at h
  · exact Or.inr h
  · split at h
    · exact Store.mem_insert h
    · exact Or.inr h

theorem RepoDelete_mem {c : Bool} {s : Store} {id : String} {p : String × Event}
    (h : p ∈ (EventRepository.Delete c s id).2) : p ∈ s := by
  unfold EventRepository.Delete at h
  split at h
  · exact h
  · split at h
    · exact Store.mem_erase h
    · exact h

theorem RepoGetDay_store (c : Bool) (s : Store) (u d : String) :
    (EventRepository.GetByUserIDAndDate c s u d).2 = s := by
  cases c <;> rfl

theorem RepoGetWeek_store (c : Bool) (s : Store) (u d : String) :
    (EventRepository.GetByUserIDAndWeek c s u d).2 = s := by
  cases c <;> rfl

theorem RepoGetMonth_store (c : Bool) (s : Store) (u d : String) :
    (EventRepository.GetByUserIDAndMonth c s u d).2 = s := by
  cases c <;> rfl

theorem CreateEvent_mem {c : Bool} {s : Store} {ev : Event} {p : String × Event}
    (h : p ∈ (EventUseCase.CreateEvent c s ev).2) :
    (p = (ev.ID, ev) ∧ EventUseCase.validateEvent ev = none) ∨ p ∈ s := by
  unfold EventUseCase.CreateEvent at h
  split at h
  · exact Or.inr h
  · split at h
    · exact Or.inr h
    · rename_i hv
      rcases RepoCreate_mem h with h2 | h2
      · exact Or.inl ⟨h2, hv⟩
      · exact Or.inr h2

theorem UpdateEvent_mem {c : Bool} {s : Store} {ev : Event} {p : String × Event}
    (h : p ∈ (EventUseCase.UpdateEvent c s ev).2) :
    (p = (ev.ID, ev) ∧ EventUseCase.validateEvent ev = none) ∨ p ∈ s := by
  unfold EventUseCase.UpdateEvent at h
  split at h
  · exact Or.inr h
  · split at h
    · exact Or.inr h
    · rename_i hv
      rcases RepoUpdate_mem h with h2 | h2
      · exact Or.inl ⟨h2, hv⟩
      · exact Or.inr h2

theorem DeleteEvent_mem {c : Bool} {s : Store} {id : String} {p : String × Event}
    (h : p ∈ (EventUseCase.DeleteEvent c s id).2) : p ∈ s := by
  unfold EventUseCase.DeleteEvent at h
  split at h
  · exact h
  · split at h
    · exact h
    · exact RepoDelete_mem h

theorem GetEventsForDay_store (c : Bool) (s : Store) (u d : String) :
    (EventUseCase.GetEventsForDay c s u d).2 = s := by
  cases c with
  | true => rfl
  | false =>
    unfold EventUseCase.GetEventsForDay
    split
    · rfl
    split
    · rfl
    split
    · rfl
    exact RepoGetDay_store false s u d

theorem GetEventsForWeek_store (c : Bool) (s : Store) (u d : String) :
    (EventUseCase.GetEventsForWeek c s u d).2 = s := by
  cases c with
  | true => rfl
  | false =>
    unfold EventUseCase.GetEventsForWeek
    split
    · rfl
    split
    · rfl
    split
    · rfl
    exact RepoGetWeek_store false s u d

theorem GetEventsForMonth_store (c : Bool) (s : Store) (u d : String) :
    (EventUseCase.GetEventsForMonth c s u d).2 = s := by
  cases c with
  | true => rfl
  | false =>
    unfold EventUseCase.GetEventsForMonth
    split
    · rfl
    split
    · rfl
    split
    · rfl
    exact RepoGetMonth_store false s u d

/-- C1: for every store state and event `e`, `create(e)` fails with
`Conflict` if and only if an event with id `e.ID` is already stored, and
then leaves the store unchanged; otherwise it inserts `e` under `e.ID`
and succeeds.  Consequently, starting from a state where the id is free,
creating two events with equal id in sequence yields exactly one success
followed by one `Conflict`. -/
theorem create_conflict_iff_else_insert (s : Store) (e e2 : Event) (hid : e2.ID = e.ID) :
    ((EventRepository.Create false s e).1 = Except.error Err.Conflict ↔
      (Store.find? s e.ID).isSome = true) ∧
    ((Store.find? s e.ID).isSome = true → (EventRepository.Create false s e).2 = s) ∧
    (Store.find? s e.ID = none →
      EventRepository.Create false s e = (Except.ok (), Store.insert s e.ID e)) ∧
    (Store.find? s e.ID = none →
      (EventRepository.Create false s e).1 = Except.ok () ∧
      (EventRepository.Create false (EventRepository.Create false s e).2 e2).1 =
        Except.error Err.Conflict) := by
  rcases hfind : Store.find? s e.ID with _ | v
  · have hc : EventRepository.Create false s e = (Except.ok (), Store.insert s e.ID e) := by
      simp [EventRepository.Create, hfind]
    have hc2 : (EventRepository.Create false (EventRepository.Create false s e).2 e2).1 =
        Except.error Err.Conflict := by
      rw [hc]
      simp [EventRepository.Create, hid, Store.find_insert_self]
    refine ⟨?_, ?_, fun _ => hc, fun _ => ⟨by rw [hc], hc2⟩⟩
    · rw [hc]
      simp
    · intro habs
      simp at habs
  · have hc : EventRepository.Create false s e = (Except.error Err.Conflict, s) := by
      simp [EventRepository.Create, hfind]
    refine ⟨?_, fun _ => by rw [hc], fun habs => ?_, fun habs => ?_⟩
    · rw [hc]
      simp [hfind]
    · exact absurd habs (by simp)
    · exact absurd habs (by simp)

/-- Witness for C1: on the empty store, creating `evA` succeeds and
creating `evB` (same id) right after fails with `Conflict`. -/
theorem create_conflict_iff_else_insert_witness :
    (EventRepository.Create false [] evA).1 = Except.ok () ∧
    (EventRepository.Create false (EventRepository.Create false [] evA).2 evB).1 =
      Except.error Err.Conflict :=
  (create_conflict_iff_else_insert [] evA evB rfl).2.2.2 rfl

/-- C2: the day query returns (with no error, leaving the store
unchanged) exactly the stored events whose user id equals `u` and whose
date string equals `d` — exact string equality, no parsing — sorted by
date ascending then title ascending for ties. -/
theorem day_query_exact_sorted (s : Store) (u d : String) :
    (EventRepository.GetByUserIDAndDate false s u d).2 = s ∧
    (EventRepository.GetByUserIDAndDate false s u d).1 =
      Except.ok (queryList (EventRepository.GetByUserIDAndDate false s u d)) ∧
    (queryList (EventRepository.GetByUserIDAndDate false s u d)).Perm
      ((Store.values s).filter fun e => e.UserID == u && e.Date == d) ∧
    (queryList (EventRepository.GetByUserIDAndDate false s u d)).Sorted eventLE := by
  refine ⟨rfl, rfl, ?_, ?_⟩
  · exact List.perm_insertionSort eventLE _
  · exact List.sorted_insertionSort eventLE _

/-- C3: updating an event whose id is absent, and deleting an absent id,
each fail with `NotFound` and leave the store exactly unchanged. -/
theorem update_delete_absent_notfound (s : Store) (e : Event) (id : String)
    (h1 : Store.find? s e.ID = none) (h2 : Store.find? s id = none) :
    EventRepository.Update false s e = (Except.error Err.NotFound, s) ∧
    EventRepository.Delete false s id = (Except.error Err.NotFound, s) := by
  constructor
  · simp [EventRepository.Update, h1]
  · simp [EventRepository.Delete, h2]

/-- Witness for C3 on the empty store. -/
theorem update_delete_absent_notfound_witness :
    EventRepository.Update false [] evA = (Except.error Err.NotFound, []) ∧
    EventRepository.Delete false [] "nope" = (Except.error Err.NotFound, []) :=
  update_delete_absent_notfound [] evA "nope" rfl rfl

/-- C4: in every store state reachable from the empty store through the
orchestration-layer operations, every stored event has a non-empty id,
non-empty user id, non-empty title, and a date that parses as a valid
`YYYY-MM-DD` Gregorian date — validation runs before any mutation, so
full validity is an invariant. -/
theorem reachable_stored_events_valid (s : Store) (hs : Reachable s) :
    ∀ e ∈ Store.values s,
      e.ID ≠ "" ∧ e.UserID ≠ "" ∧ e.Title ≠ "" ∧ isValidDate e.Date = true := by
  induction hs with
  | empty =>
    intro e he
    simp [Store.values] at he
  | create c s0 ev _ ih =>
    intro e he
    rcases Store.mem_values.mp he with ⟨p, hp, hpe⟩
    rcases CreateEvent_mem hp with ⟨hpv, hv⟩ | h2
    · rw [← hpe, hpv]
      exact validateEvent_eq_none hv
    · exact ih e (Store.mem_values.mpr ⟨p, h2, hpe⟩)
  | update c s0 ev _ ih =>
    intro e he
    rcases Store.mem_values.mp he with ⟨p, hp, hpe⟩
    rcases UpdateEvent_mem hp with ⟨hpv, hv⟩ | h2
    · rw [← hpe, hpv]
      exact validateEvent_eq_none hv
    · exact ih e (Store.mem_values.mpr ⟨p, h2, hpe⟩)
  | delete c s0 id _ ih =>
    intro e he
    rcases Store.mem_values.mp he with ⟨p, hp, hpe⟩
    exact ih e (Store.mem_values.mpr ⟨p, DeleteEvent_mem hp, hpe⟩)
  | day c s0 u d _ ih =>
    rw [GetEventsForDay_store]
    exact ih
  | week c s0 u d _ ih =>
    rw [GetEventsForWeek_store]
    exact ih
  | month c s0 u d _ ih =>
    rw [GetEventsForMonth_store]
    exact ih

/-- Witness for C4: after creating `evA` from the empty store, the
stored event is fully valid. -/
theorem reachable_stored_events_valid_witness :
    evA.ID ≠ "" ∧ evA.UserID ≠ "" ∧ evA.Title ≠ "" ∧ isValidDate evA.Date = true :=
  reachable_stored_events_valid _ (Reachable.create false [] evA Reachable.empty) evA
    (by decide)

/-- C5: when the target date `d` parses (to `td`), the week query
returns (with no error, leaving the store unchanged) exactly the stored
events of user `u` whose own parseable date has the same ISO-8601
(week-year, week) pair as `td`; in particular, on a store holding the
user's events dated 2025-01-15, 2025-01-16 and 2025-01-22, querying the
week of 2025-01-15 returns the first two and not the third. -/
theorem week_query_iso_pair (s : Store) (u d : String) (td : Date)
    (h : parseDate d = some td) :
    ((EventRepository.GetByUserIDAndWeek false s u d).2 = s ∧
     (EventRepository.GetByUserIDAndWeek false s u d).1 =
       Except.ok (queryList (EventRepository.GetByUserIDAndWeek false s u d)) ∧
     (queryList (EventRepository.GetByUserIDAndWeek false s u d)).Perm
       ((Store.values s).filter fun e =>
         e.UserID == u &&
           match parseDate e.Date with
           | some ed => isoWeek ed == isoWeek td
           | none => false)) ∧
    queryList (EventRepository.GetByUserIDAndWeek false demoWeekStore "user-1" "2025-01-15") =
      [demoWed, demoThu] ∧
    demoNext ∉
      queryList (EventRepository.GetByUserIDAndWeek false demoWeekStore "user-1" "2025-01-15") := by
  have hg : goParsedOrZero d = td := by
    unfold goParsedOrZero
    rw [h]
    rfl
  refine ⟨⟨rfl, rfl, ?_⟩, by decide, by decide⟩
  rw [← hg]
  exact List.perm_insertionSort eventLE _

/-- Witness for C5 on the three-event demo store, with target
`2025-01-15` (ISO week 3 of 2025). -/
theorem week_query_iso_pair_witness :
    queryList (EventRepository.GetByUserIDAndWeek false demoWeekStore "user-1" "2025-01-15") =
      [demoWed, demoThu] :=
  (week_query_iso_pair demoWeekStore "user-1" "2025-01-15" ⟨2025, 1, 15⟩ (by decide)).2.1

/-- C6: when no stored event matches, each of the three query
operations returns an empty collection — `Except.ok []`, not an error:
"no results" is never an error case, and the store is unchanged. -/
theorem queries_empty_not_error (s : Store) (u d : String)
    (hday : ∀ e ∈ Store.values s, (e.UserID == u && e.Date == d) = false)
    (hweek : ∀ e ∈ Store.values s,
      (e.UserID == u &&
        match parseDate e.Date with
        | some ed => isoWeek ed == isoWeek (goParsedOrZero d)
        | none => false) = false)
    (hmonth : ∀ e ∈ Store.values s,
      (e.UserID == u &&
        match parseDate e.Date with
        | some ed => ed.year == (goParsedOrZero d).year && ed.month == (goParsedOrZero d).month
        | none => false) = false) :
    EventRepository.GetByUserIDAndDate false s u d = (Except.ok [], s) ∧
    EventRepository.GetByUserIDAndWeek false s u d = (Except.ok [], s) ∧
    EventRepository.GetByUserIDAndMonth false s u d = (Except.ok [], s) := by
  refine ⟨?_, ?_, ?_⟩
  · have hf : (Store.values s).filter
        (fun e => e.UserID == u && e.Date == d) = [] :=
      List.filter_eq_nil_iff.mpr (fun e he => by simp [hday e he])
    show (Except.ok (sortEvents ((Store.values s).filter
      (fun e => e.UserID == u && e.Date == d))), s) = (Except.ok [], s)
    rw [hf]
    rfl
  · have hf : (Store.values s).filter
        (fun e => e.UserID == u &&
          match parseDate e.Date with
          | some ed => isoWeek ed == isoWeek (goParsedOrZero d)
          | none => false) = [] :=
      List.filter_eq_nil_iff.mpr (fun e he => by simp [hweek e he])
    show (Except.ok (sortEvents ((Store.values s).filter
      (fun e => e.UserID == u &&
        match parseDate e.Date with
        | some ed => isoWeek ed == isoWeek (goParsedOrZero d)
        | none => false))), s) = (Except.ok [], s)
    rw [hf]
    rfl
  · have hf : (Store.values s).filter
        (fun e => e.UserID == u &&
          match parseDate e.Date with
          | some ed => ed.year == (goParsedOrZero d).year &&
              ed.month == (goParsedOrZero d).month
          | none => false) = [] :=
      List.filter_eq_nil_iff.mpr (fun e he => by simp [hmonth e he])
    show (Except.ok (sortEvents ((Store.values s).filter
      (fun e => e.UserID == u &&
        match parseDate e.Date with
        | some ed => ed.year == (goParsedOrZero d).year &&
            ed.month == (goParsedOrZero d).month
        | none => false))), s) = (Except.ok [], s)
    rw [hf]
    rfl

/-- Witness for C6: a store holding only another user's event yields
empty day/week/month results for `user-1`, with no error. -/
theorem queries_empty_not_error_witness :
    EventRepository.GetByUserIDAndDate false [("x9", evOther)] "user-1" "2025-01-15" =
      (Except.ok [], [("x9", evOther)]) ∧
    EventRepository.GetByUserIDAndWeek false [("x9", evOther)] "user-1" "2025-01-15" =
      (Except.ok [], [("x9", evOther)]) ∧
    EventRepository.GetByUserIDAndMonth false [("x9", evOther)] "user-1" "2025-01-15" =
      (Except.ok [], [("x9", evOther)]) :=
  queries_empty_not_error [("x9", evOther)] "user-1" "2025-01-15"
    (by decide) (by decide) (by decide)

/-- C7: full-event validation checks id, user id, title, date in that
fixed order and reports the first violated rule's error; in particular
any event with an empty id — including one violating all four rules —
fails with `EmptyID`, and so do `create_event`/`update_event` on it. -/
theorem validate_first_violation_wins (e : Event) (s : Store) :
    (e.ID = "" → EventUseCase.validateEvent e = some Err.EmptyID) ∧
    (e.ID ≠ "" → e.UserID = "" → EventUseCase.validateEvent e = some Err.EmptyUserID) ∧
    (e.ID ≠ "" → e.UserID ≠ "" → e.Title = "" →
      EventUseCase.validateEvent e = some Err.EmptyTitle) ∧
    (e.ID ≠ "" → e.UserID ≠ "" → e.Title ≠ "" → isValidDate e.Date = false →
      EventUseCase.validateEvent e = some Err.InvalidDate) ∧
    (e.ID ≠ "" → e.UserID ≠ "" → e.Title ≠ "" → isValidDate e.Date = true →
      EventUseCase.validateEvent e = none) ∧
    (e.ID = "" →
      EventUseCase.CreateEvent false s e = (Except.error Err.EmptyID, s) ∧
      EventUseCase.UpdateEvent false s e = (Except.error Err.EmptyID, s)) := by
  refine ⟨?_, ?_, ?_, ?_, ?_, ?_⟩
  · intro h1
    simp [EventUseCase.validateEvent, h1]
  · intro h1 h2
    simp [EventUseCase.validateEvent, h1, h2]
  · intro h1 h2 h3
    simp [EventUseCase.validateEvent, h1, h2, h3]
  · intro h1 h2 h3 h4
    simp [EventUseCase.validateEvent, h1, h2, h3, h4]
  · intro h1 h2 h3 h4
    simp [EventUseCase.validateEvent, h1, h2, h3, h4]
  · intro h1
    have hv : EventUseCase.validateEvent e = some Err.EmptyID := by
      simp [EventUseCase.validateEvent, h1]
    constructor
    · simp [EventUseCase.CreateEvent, hv]
    · simp [EventUseCase.UpdateEvent, hv]

/-- Witness for C7: the all-invalid event `⟨"", "", "", "bad"⟩` fails
validation, creation and update with `EmptyID` specifically. -/
theorem validate_first_violation_wins_witness :
    EventUseCase.validateEvent evBad = some Err.EmptyID ∧
    EventUseCase.CreateEvent false [] evBad = (Except.error Err.EmptyID, []) ∧
    EventUseCase.UpdateEvent false [] evBad = (Except.error Err.EmptyID, []) :=
  ⟨(validate_first_violation_wins evBad []).1 rfl,
   ((validate_first_violation_wins evBad []).2.2.2.2.2 rfl).1,
   ((validate_first_violation_wins evBad []).2.2.2.2.2 rfl).2⟩

/-- C8: every orchestration-layer operation invoked with an
already-triggered cancellation signal returns the `Cancelled` error
immediately — before any validation or store access, even on invalid
arguments — and leaves the store exactly unchanged. -/
theorem cancelled_fails_fast (s : Store) (e : Event) (id u d : String) :
    EventUseCase.CreateEvent true s e = (Except.error Err.Cancelled, s) ∧
    EventUseCase.UpdateEvent true s e = (Except.error Err.Cancelled, s) ∧
    EventUseCase.DeleteEvent true s id = (Except.error Err.Cancelled, s) ∧
    EventUseCase.GetEventsForDay true s u d = (Except.error Err.Cancelled, s) ∧
    EventUseCase.GetEventsForWeek true s u d = (Except.error Err.Cancelled, s) ∧
    EventUseCase.GetEventsForMonth true s u d = (Except.error Err.Cancelled, s) :=
  ⟨rfl, rfl, rfl, rfl, rfl, rfl⟩

/-- Witness for C8 at concrete arguments (including an invalid event,
which is still rejected as `Cancelled`, not as a validation error). -/
theorem cancelled_fails_fast_witness :
    EventUseCase.CreateEvent true [("e1", evA)] evBad =
      (Except.error Err.Cancelled, [("e1", evA)]) :=
  (cancelled_fails_fast [("e1", evA)] evBad "z" "u" "d").1

/-- Counterexample to C9: the store holds one event with the valid,
parseable date `0001-01-01`, and the target `"bad"` fails to parse —
yet both the week query and the month query return that event rather
than an empty result, because the discarded parse error leaves the zero
`time.Time` (January 1 of year 1, ISO week 1 of week-year 1), not a
zero-valued year/week/month. -/
theorem week_month_malformed_target_counterexample :
    parseDate "bad" = none ∧
    (parseDate evYear1.Date).isSome = true ∧
    queryList (EventRepository.GetByUserIDAndWeek false storeYear1 "user-z" "bad") =
      [evYear1] ∧
    queryList (EventRepository.GetByUserIDAndMonth false storeYear1 "user-z" "bad") =
      [evYear1] := by
  refine ⟨rfl, rfl, by decide, by decide⟩

/-- C9 as amended: for a store whose events all have valid parseable
dates and a target date string that fails to parse, the week and month
queries return an empty result provided no stored event's date falls in
the ISO week of the zero time (week 1 of week-year 1) respectively in
its calendar month (January of year 1) — the parse failure yields the
zero `time.Time` 0001-01-01, whose week/month can still be matched by
stored valid dates in that range. -/
theorem week_month_malformed_target_empty (s : Store) (u d : String)
    (hd : parseDate d = none)
    (_hvalid : ∀ e ∈ Store.values s, (parseDate e.Date).isSome = true)
    (hweek : ∀ e ∈ Store.values s,
      ((parseDate e.Date).all fun ed => isoWeek ed != (1, 1)) = true)
    (hmonth : ∀ e ∈ Store.values s,
      ((parseDate e.Date).all fun ed => !(ed.year == 1 && ed.month == 1)) = true) :
    EventRepository.GetByUserIDAndWeek false s u d = (Except.ok [], s) ∧
    EventRepository.GetByUserIDAndMonth false s u d = (Except.ok [], s) := by
  have hg : goParsedOrZero d = ⟨1, 1, 1⟩ := by
    unfold goParsedOrZero
    rw [hd]
    rfl
  have hiso : isoWeek ⟨1, 1, 1⟩ = (1, 1) := by decide
  constructor
  · have hf : (Store.values s).filter
        (fun e => e.UserID == u &&
          match parseDate e.Date with
          | some ed => isoWeek ed == isoWeek (goParsedOrZero d)
          | none => false) = [] := by
      refine List.filter_eq_nil_iff.mpr (fun e he => ?_)
      cases hp : parseDate e.Date with
      | none =>
        simp [hp]
      | some ed =>
        have hw := hweek e he
        rw [hp] at hw
        simp only [Option.all] at hw
        have hne : isoWeek ed ≠ (1, 1) := bne_iff_ne.mp hw
        simp only [hp, hg, hiso, Bool.and_eq_true, beq_iff_eq]
        intro habs
        exact hne habs.2
    show (Except.ok (sortEvents ((Store.values s).filter
      (fun e => e.UserID == u &&
        match parseDate e.Date with
        | some ed => isoWeek ed == isoWeek (goParsedOrZero d)
        | none => false))), s) = (Except.ok [], s)
    rw [hf]
    rfl
  · have hf : (Store.values s).filter
        (fun e => e.UserID == u &&
          match parseDate e.Date with
          | some ed => ed.year == (goParsedOrZero d).year &&
              ed.month == (goParsedOrZero d).month
          | none => false) = [] := by
      refine List.filter_eq_nil_iff.mpr (fun e he => ?_)
      cases hp : parseDate e.Date with
      | none =>
        simp [hp]
      | some ed =>
        have hm := hmonth e he
        rw [hp] at hm
        simp only [Option.all] at hm
        have hne : ¬(ed.year = 1 ∧ ed.month = 1) := by
          intro habs
          rw [habs.1, habs.2] at hm
          simp at hm
        simp only [hp, hg, Bool.and_eq_true, beq_iff_eq]
        intro habs
        exact hne ⟨habs.2.1, habs.2.2⟩
    show (Except.ok (sortEvents ((Store.values s).filter
      (fun e => e.UserID == u &&
        match parseDate e.Date with
        | some ed => ed.year == (goParsedOrZero d).year &&
            ed.month == (goParsedOrZero d).month
        | none => false))), s) = (Except.ok [], s)
    rw [hf]
    rfl

/-- Witness for the amended C9: one parseable 2025 event, target
`"bad"`; both queries come back empty with no error. -/
theorem week_month_malformed_target_empty_witness :
    EventRepository.GetByUserIDAndWeek false [("e1", evA)] "u1" "bad" =
      (Except.ok [], [("e1", evA)]) ∧
    EventRepository.GetByUserIDAndMonth false [("e1", evA)] "u1" "bad" =
      (Except.ok [], [("e1", evA)]) :=
  week_month_malformed_target_empty [("e1", evA)] "u1" "bad" rfl
    (by decide) (by decide) (by decide)

/-- C10: in every store state reachable from the empty store through the
repository operations, the map key of each stored entry equals the `ID`
field of the event stored under it — create and update insert the event
under its own id, and no operation breaks the correspondence. -/
theorem store_keys_match_ids (s : Store) (hs : RepoReachable s) :
    ∀ p ∈ s, p.1 = p.2.ID := by
  induction hs with
  | empty =>
    intro p hp
    simp at hp
  | create c s0 e _ ih =>
    intro p hp
    rcases RepoCreate_mem hp with h2 | h2
    · rw [h2]
    · exact ih p h2
  | update c s0 e _ ih =>
    intro p hp
    rcases RepoUpdate_mem hp with h2 | h2
    · rw [h2]
    · exact ih p h2
  | delete c s0 id _ ih =>
    intro p hp
    exact ih p (RepoDelete_mem hp)
  | day c s0 u d _ ih =>
    rw [RepoGetDay_store]
    exact ih
  | week c s0 u d _ ih =>
    rw [RepoGetWeek_store]
    exact ih
  | month c s0 u d _ ih =>
    rw [RepoGetMonth_store]
    exact ih

/-- Witness for C10: after creating `evA` on the empty store, the entry
stored under key `"e1"` carries the event whose `ID` is `"e1"`. -/
theorem store_keys_match_ids_witness :
    (("e1", evA) : String × Event).1 = (("e1", evA) : String × Event).2.ID :=
  store_keys_match_ids _ (RepoReachable.create false [] evA RepoReachable.empty)
    ("e1", evA) (by decide)
